import Mathlib

/-!
Shallow embedding of the chain-identity resolution layer of the `rsp`
repository (file `crates/primitives/src/genesis.rs`) and proofs of the
specification claims about it.

Conventions of the embedding:
* Rust `u64` values are modelled as `Nat` (no arithmetic overflow occurs in
  this code: all operations are matches and record constructions).
* `serde_json::Value` is modelled by the inductive `Json`; the `BTreeMap`s
  appearing in `ChainConfig` (`extra_fields`, `blob_schedule`) are modelled
  as key-sorted association lists with a sorted-insert operation
  (`btreeInsert`), matching BTreeMap's key-order-independent contents.
* Fallible Rust functions returning `Result` are modelled with `Except`,
  `Option`-returning ones with `Option`; a potential `panic` (`unwrap`) is
  modelled as the `none` case of an `Option` result.
* External library types (`alloy` / `reth`) that the source constructs or
  consumes are modelled structurally from their use sites and from the
  specification's data model; external constants are modelled as concrete
  named constants.
-/

/-- Model of `serde_json::Value`: JSON values as stored in `ChainConfig`'s
open extension-metadata map. Numbers are modelled as integers, which covers
every value this code inspects (chain ids, activation heights, size limits). -/
inductive Json where
  | null
  | bool (b : Bool)
  | num (n : Int)
  | str (s : String)
  | arr (elems : List Json)
  | obj (fields : List (String × Json))
deriving Repr

/-- Lexicographic strict order on character lists, decided computably (the
byte order `BTreeMap<String, _>` keys are sorted by). -/
def charListLt : List Char → List Char → Bool
  | [], [] => false
  | [], _ :: _ => true
  | _ :: _, [] => false
  | c :: cs, d :: ds =>
    if c.toNat < d.toNat then true
    else if d.toNat < c.toNat then false
    else charListLt cs ds

/-- Strict order on strings used for the BTreeMap model's key sorting. -/
def strLt (a b : String) : Bool := charListLt a.data b.data

/-- Model of `BTreeMap::insert`: insert into a key-sorted association list,
replacing the value when the key is already present. -/
def btreeInsert {α : Type} (k : String) (v : α) : List (String × α) → List (String × α)
  | [] => [(k, v)]
  | (k', v') :: rest =>
    if strLt k k' then (k, v) :: (k', v') :: rest
    else if strLt k' k then (k', v') :: btreeInsert k v rest
    else (k, v) :: rest

/-- Model of `BTreeMap::get`: lookup in an association list. -/
def btreeLookup {α : Type} (k : String) : List (String × α) → Option α
  | [] => none
  | (k', v') :: rest => if k' = k then some v' else btreeLookup k rest

/-- Model of `alloy_eips::eip7840::BlobParams` (blob-fee parameters for one
hardfork), used for `ChainConfig.blob_schedule` entries and the blob-schedule
constants. Field set as constructed in the repository's round-trip test. -/
structure BlobParams where
  target_blob_count : Nat
  max_blob_count : Nat
  update_fraction : Nat
  min_blob_fee : Nat
  max_blobs_per_tx : Nat
  blob_base_cost : Nat
deriving Repr, DecidableEq

/-- Model of `alloy_genesis::ChainConfig`, following the specification's data
model for the custom configuration record: a numeric chain id, optional
fork-activation rules (a representative block-activated and
timestamp-activated selection), the per-fork blob-fee schedule, and the open
extension-metadata map (`extra_fields`, a `BTreeMap<String, Value>` modelled
as a key-sorted association list). -/
structure ChainConfig where
  chain_id : Nat
  homestead_block : Option Nat := none
  london_block : Option Nat := none
  shanghai_time : Option Nat := none
  cancun_time : Option Nat := none
  prague_time : Option Nat := none
  blob_schedule : List (String × BlobParams) := []
  extra_fields : List (String × Json) := []
deriving Repr

instance : Inhabited ChainConfig := ⟨{ chain_id := 0 }⟩

/-- Model of the `Genesis` enum of `genesis.rs`: five named networks and the
open `Custom` variant carrying a configuration record. -/
inductive Genesis where
  | Mainnet
  | OpMainnet
  | Sepolia
  | Holesky
  | Linea
  | Custom (config : ChainConfig)
deriving Repr

/-- Modelled from the spec: the error taxonomy of `crate::error::ChainSpecError`
(the file `error.rs` is not part of the provided sources); §7 of the spec
names UnsupportedChain (carrying the offending id), InvalidConversion, and
MalformedPayload (a parse failure, carrying the originating cause). -/
inductive ChainSpecError where
  | ChainNotSupported (id : Nat)
  | InvalidConversion
  | MalformedPayload (msg : String)
deriving Repr, DecidableEq

/-- Model of `impl TryFrom<u64> for Genesis`: the match on the numeric chain
id (a match on integer literals, rendered as an if-chain). -/
def Genesis.try_from (value : Nat) : Except ChainSpecError Genesis :=
  if value = 1 then .ok .Mainnet
  else if value = 10 then .ok .OpMainnet
  else if value = 17000 then .ok .Holesky
  else if value = 59144 then .ok .Linea
  else if value = 11155111 then .ok .Sepolia
  else .error (.ChainNotSupported value)

example : Genesis.try_from 1 = .ok .Mainnet := rfl
example : Genesis.try_from 2 = .error (.ChainNotSupported 2) := rfl

/-- Model of the serde data model seen by `serde_json`'s serializer: what a
`Serialize` implementation feeds the serializer. Unlike `Json`, map keys are
arbitrary values here — `serde_json` rejects non-string keys at runtime,
which is the error branch that makes `serde_json::to_vec` fallible. -/
inductive SerValue where
  | null
  | bool (b : Bool)
  | num (n : Int)
  | str (s : String)
  | seq (elems : List SerValue)
  | map (entries : List (SerValue × SerValue))
deriving Repr

/-- Opening brace character of JSON object syntax. -/
def lbrace : Char := Char.ofNat 123

/-- Closing brace character of JSON object syntax. -/
def rbrace : Char := Char.ofNat 125

/-- Serialization of a map key: `serde_json` only accepts string keys and
errors out otherwise. -/
def serKey : SerValue → Except String (List Char)
  | .str s => .ok ('"' :: s.data ++ ['"'])
  | _ => .error ("key must be a string")

mutual
/-- Model of `serde_json`'s value serializer producing JSON text. -/
def serWrite : SerValue → Except String (List Char)
  | .null => .ok ("null".data)
  | .bool true => .ok ("true".data)
  | .bool false => .ok ("false".data)
  | .num n => .ok (toString n).data
  | .str s => .ok ('"' :: s.data ++ ['"'])
  | .seq xs => do
      let body ← serWriteList xs
      .ok ('[' :: body ++ [']'])
  | .map es => do
      let body ← serWriteEntries es
      .ok (lbrace :: body ++ [rbrace])

/-- Serialize sequence elements, comma-separated. -/
def serWriteList : List SerValue → Except String (List Char)
  | [] => .ok []
  | [x] => serWrite x
  | x :: y :: xs => do
      let c ← serWrite x
      let r ← serWriteList (y :: xs)
      .ok (c ++ ',' :: r)

/-- Serialize map entries, comma-separated, each as key, colon, value. -/
def serWriteEntries : List (SerValue × SerValue) → Except String (List Char)
  | [] => .ok []
  | [(k, v)] => do
      let ks ← serKey k
      let vs ← serWrite v
      .ok (ks ++ ':' :: vs)
  | (k, v) :: e :: es => do
      let ks ← serKey k
      let vs ← serWrite v
      let r ← serWriteEntries (e :: es)
      .ok (ks ++ ':' :: vs ++ ',' :: r)
end

mutual
/-- Embedding of a `Json` value (`serde_json::Value`) into the serde data
model: `Value`'s own `Serialize` implementation, whose objects always have
string keys. -/
def Json.toSer : Json → SerValue
  | .null => .null
  | .bool b => .bool b
  | .num n => .num n
  | .str s => .str s
  | .arr xs => .seq (jsonListToSer xs)
  | .obj fs => .map (jsonFieldsToSer fs)

/-- Embed a list of JSON values into the serde data model. -/
def jsonListToSer : List Json → List SerValue
  | [] => []
  | x :: xs => Json.toSer x :: jsonListToSer xs

/-- Embed JSON object fields into serde map entries with string keys. -/
def jsonFieldsToSer : List (String × Json) → List (SerValue × SerValue)
  | [] => []
  | (k, v) :: fs => (SerValue.str k, Json.toSer v) :: jsonFieldsToSer fs
end

/-- Serialization of an optional numeric field of `ChainConfig`: serde skips
absent optional fields (`skip_serializing_if = "Option::is_none"`). -/
def optNumField (k : String) : Option Nat → List (String × Json)
  | none => []
  | some n => [(k, Json.num n)]

/-- Model of `BlobParams`' `Serialize` implementation (geth genesis
blob-schedule entry format). -/
def BlobParams.toJson (b : BlobParams) : Json :=
  Json.obj [("target", Json.num b.target_blob_count),
            ("max", Json.num b.max_blob_count),
            ("baseFeeUpdateFraction", Json.num b.update_fraction),
            ("minBlobFee", Json.num b.min_blob_fee),
            ("maxBlobsPerTx", Json.num b.max_blobs_per_tx),
            ("blobBaseCost", Json.num b.blob_base_cost)]

/-- Model of `ChainConfig`'s `Serialize` implementation: struct fields in
declaration order with camelCase names, absent options skipped, the
blob-schedule map skipped when empty, and the flattened `extra_fields`
appended. Both maps are key-sorted (`BTreeMap`), so this serialized form is
canonical: independent of insertion order. -/
def ChainConfig.toJson (c : ChainConfig) : Json :=
  Json.obj (("chainId", Json.num c.chain_id)
    :: (optNumField ("homesteadBlock") c.homestead_block
      ++ optNumField ("londonBlock") c.london_block
      ++ optNumField ("shanghaiTime") c.shanghai_time
      ++ optNumField ("cancunTime") c.cancun_time
      ++ optNumField ("pragueTime") c.prague_time
      ++ (if c.blob_schedule.isEmpty then []
          else [(("blobSchedule" : String),
                 Json.obj (c.blob_schedule.map (fun kv => (kv.1, BlobParams.toJson kv.2))))])
      ++ c.extra_fields))

/-- Model of `serde_json::to_vec(config)` in the `Hash` implementation:
serializing the configuration record to canonical JSON bytes. -/
def serde_json_to_vec (c : ChainConfig) : Except String (List Char) :=
  serWrite (Json.toSer (ChainConfig.toJson c))

/-- Model of `impl Hash for Genesis`: the byte stream fed to the `Hasher`
determines the hash, so the stream itself stands for the hash value. Named
variants hash their numeric chain id; `Custom` hashes the JSON serialization
of its configuration (a `Vec<u8>` hashes its length and contents). The
`unwrap` on the serialization result is modelled by `Option`: `none` is the
panic branch. -/
def Genesis.hash : Genesis → Option (List Nat)
  | .Mainnet => some [1]
  | .OpMainnet => some [10]
  | .Sepolia => some [11155111]
  | .Holesky => some [17000]
  | .Linea => some [59144]
  | .Custom config =>
      match serde_json_to_vec config with
      | .ok buf => some (buf.length :: buf.map Char.toNat)
      | .error _ => none

/-- Model of the `EvolveConfig` struct: the Evolve Overlay's field set, every
feature independently optional. Addresses are modelled as their 160-bit
numeric value. -/
structure EvolveConfig where
  base_fee_sink : Option Nat := none
  base_fee_redirect_activation_height : Option Nat := none
  mint_admin : Option Nat := none
  mint_precompile_activation_height : Option Nat := none
  contract_size_limit : Option Nat := none
  contract_size_limit_activation_height : Option Nat := none
deriving Repr, DecidableEq

/-- Value of a hexadecimal digit character, if it is one. -/
def hexDigitVal (c : Char) : Option Nat :=
  if '0' ≤ c ∧ c ≤ '9' then some (c.toNat - 48)
  else if 'a' ≤ c ∧ c ≤ 'f' then some (c.toNat - 87)
  else if 'A' ≤ c ∧ c ≤ 'F' then some (c.toNat - 55)
  else none

/-- Accumulate a hexadecimal number; fails on any non-hex character. -/
def parseHexAcc (acc : Nat) : List Char → Option Nat
  | [] => some acc
  | c :: cs => (hexDigitVal c).bind (fun d => parseHexAcc (acc * 16 + d) cs)

/-- Model of deserializing an `alloy_primitives::Address` from a JSON value:
a string of exactly 40 hex digits with a 0x prefix. -/
def parseAddress : Json → Option Nat
  | .str s =>
    match s.data with
    | '0' :: 'x' :: rest => if rest.length = 40 then parseHexAcc 0 rest else none
    | _ => none
  | _ => none

/-- Model of deserializing a `u64` (also covering `usize`) from a JSON value:
a non-negative integer below 2^64. -/
def parseU64 : Json → Option Nat
  | .num n => if 0 ≤ n ∧ n < 2 ^ 64 then some n.toNat else none
  | _ => none

/-- Deserialize one optional field of a struct: an absent or null entry gives
`none`; a present entry must parse, or the whole struct fails. -/
def optField {α : Type} (parse : Json → Option α) (k : String)
    (fields : List (String × Json)) : Option (Option α) :=
  match btreeLookup k fields with
  | none => some none
  | some .null => some none
  | some v => (parse v).map some

/-- Model of `serde_json::from_value::<EvolveConfig>`: the derived
`Deserialize` for `EvolveConfig` with its camelCase renames; every field is
optional, unknown keys are ignored, and a present field of the wrong shape
fails the whole deserialization. -/
def EvolveConfig.fromJson (j : Json) : Option EvolveConfig :=
  match j with
  | .obj fields => do
      let sink ← optField parseAddress ("baseFeeSink") fields
      let sinkH ← optField parseU64 ("baseFeeRedirectActivationHeight") fields
      let admin ← optField parseAddress ("mintAdmin") fields
      let adminH ← optField parseU64 ("mintPrecompileActivationHeight") fields
      let limit ← optField parseU64 ("contractSizeLimit") fields
      let limitH ← optField parseU64 ("contractSizeLimitActivationHeight") fields
      some { base_fee_sink := sink,
             base_fee_redirect_activation_height := sinkH,
             mint_admin := admin,
             mint_precompile_activation_height := adminH,
             contract_size_limit := limit,
             contract_size_limit_activation_height := limitH }
  | _ => none

/-- Model of `EvolveConfig::from_chain_config`: look up the "evolve" section
of the configuration's extension metadata and try to deserialize it,
converting any failure to `None` (the Rust `.ok()`). -/
def EvolveConfig.from_chain_config (config : ChainConfig) : Option EvolveConfig :=
  (btreeLookup ("evolve") config.extra_fields).bind EvolveConfig.fromJson

/-- Model of `EvolveConfig::from_genesis`: extraction is defined only for the
`Custom` variant; every named variant yields `None`. -/
def EvolveConfig.from_genesis : Genesis → Option EvolveConfig
  | .Custom config => EvolveConfig.from_chain_config config
  | _ => none

/-- Skip JSON whitespace. -/
def skipWs : List Char → List Char
  | c :: cs => if c = ' ' ∨ c = '\n' ∨ c = '\t' ∨ c = '\r' then skipWs cs else c :: cs
  | [] => []

/-- Read the remainder of a JSON string literal (escape sequences are not
modelled; none appear in the payloads this code handles). -/
def parseStrAcc (acc : List Char) : List Char → Option (String × List Char)
  | [] => none
  | c :: cs => if c = '"' then some (String.mk acc.reverse, cs) else parseStrAcc (c :: acc) cs

/-- Read a run of decimal digits into an accumulator. -/
def parseDigits (acc : Nat) : List Char → Nat × List Char
  | [] => (acc, [])
  | c :: cs =>
    if '0' ≤ c ∧ c ≤ '9' then parseDigits (acc * 10 + (c.toNat - 48)) cs
    else (acc, c :: cs)

/-- Whether a character is a decimal digit. -/
def isDigitChar (c : Char) : Bool := '0' ≤ c ∧ c ≤ '9'

/-- Read a JSON number (integers; the payloads this code handles carry no
fractional numbers). -/
def parseNumTok : List Char → Option (Json × List Char)
  | '-' :: c :: cs =>
    if isDigitChar c then
      let p := parseDigits 0 (c :: cs)
      some (.num (-(p.1 : Int)), p.2)
    else none
  | c :: cs =>
    if isDigitChar c then
      let p := parseDigits 0 (c :: cs)
      some (.num (p.1 : Int), p.2)
    else none
  | [] => none

mutual
/-- Model of `serde_json`'s recursive-descent value parser, fueled for
termination. Objects are built with `btreeInsert`, matching `serde_json`'s
BTreeMap-backed object representation (later duplicate keys overwrite). -/
def parseJsonVal : Nat → List Char → Option (Json × List Char)
  | 0, _ => none
  | Nat.succ f, cs =>
    match skipWs cs with
    | [] => none
    | c :: rest =>
      if c = 'n' then
        match rest with
        | 'u' :: 'l' :: 'l' :: r => some (.null, r)
        | _ => none
      else if c = 't' then
        match rest with
        | 'r' :: 'u' :: 'e' :: r => some (.bool true, r)
        | _ => none
      else if c = 'f' then
        match rest with
        | 'a' :: 'l' :: 's' :: 'e' :: r => some (.bool false, r)
        | _ => none
      else if c = '"' then
        (parseStrAcc [] rest).map (fun p => (.str p.1, p.2))
      else if c = '[' then
        match skipWs rest with
        | ']' :: r => some (.arr [], r)
        | r => (parseElems f r).map (fun p => (.arr p.1, p.2))
      else if c = lbrace then
        match skipWs rest with
        | r0 :: r =>
          if r0 = rbrace then some (.obj [], r)
          else
            (parseMembers f (r0 :: r)).map
              (fun p => (.obj (p.1.foldl (fun m kv => btreeInsert kv.1 kv.2 m) []), p.2))
        | [] => none
      else parseNumTok (c :: rest)
termination_by structural f => f

/-- Parse the comma-separated elements of a non-empty JSON array, up to and
including the closing bracket. -/
def parseElems : Nat → List Char → Option (List Json × List Char)
  | 0, _ => none
  | Nat.succ f, cs => do
    let (v, r) ← parseJsonVal f cs
    match skipWs r with
    | ',' :: r2 => (parseElems f r2).map (fun p => (v :: p.1, p.2))
    | ']' :: r2 => some ([v], r2)
    | _ => none
termination_by structural f => f

/-- Parse the comma-separated members of a non-empty JSON object, up to and
including the closing brace, returning the key-value pairs in textual order. -/
def parseMembers : Nat → List Char → Option (List (String × Json) × List Char)
  | 0, _ => none
  | Nat.succ f, cs =>
    match skipWs cs with
    | '"' :: r => do
      let (k, r1) ← parseStrAcc [] r
      match skipWs r1 with
      | ':' :: r2 => do
        let (v, r3) ← parseJsonVal f r2
        match skipWs r3 with
        | ',' :: r4 => (parseMembers f r4).map (fun p => ((k, v) :: p.1, p.2))
        | rb :: r4 => if rb = rbrace then some ([(k, v)], r4) else none
        | [] => none
      | _ => none
    | _ => none
termination_by structural f => f
end

/-- Model of `serde_json::from_str::<Value>`: parse a complete JSON document,
rejecting trailing noise. The fuel bound exceeds any possible nesting depth
of the input. -/
def parseJsonText (s : String) : Except String Json :=
  match parseJsonVal (s.data.length + 1) s.data with
  | some (j, rest) => if (skipWs rest).isEmpty then .ok j else .error ("trailing characters")
  | none => .error ("invalid JSON")

example : parseJsonText ("\x7b\"a\": [1, -2, null], \"b\": \"x\"\x7d")
    = .ok (Json.obj [("a", Json.arr [Json.num 1, Json.num (-2), Json.null]), ("b", Json.str ("x"))]) := by
  rfl

example : parseJsonText ("\x7b\"a\": ") = .error ("invalid JSON") := by rfl

/-- Deserialize an `Option<u64>` field value: null gives none, a number in
range gives some. -/
def parseOptU64 (v : Json) : Option (Option Nat) :=
  match v with
  | .null => some none
  | v => (parseU64 v).map some

/-- Model of `BlobParams`' `Deserialize` implementation: the three canonical
geth blob-schedule keys are required, the remaining fields default. -/
def BlobParams.fromJson (j : Json) : Option BlobParams :=
  match j with
  | .obj fields => do
    let target ← (btreeLookup ("target") fields).bind parseU64
    let maxCount ← (btreeLookup ("max") fields).bind parseU64
    let fraction ← (btreeLookup ("baseFeeUpdateFraction") fields).bind parseU64
    let minFee := ((btreeLookup ("minBlobFee") fields).bind parseU64).getD 1
    let maxPerTx := ((btreeLookup ("maxBlobsPerTx") fields).bind parseU64).getD maxCount
    let baseCost := ((btreeLookup ("blobBaseCost") fields).bind parseU64).getD 0
    some { target_blob_count := target, max_blob_count := maxCount,
           update_fraction := fraction, min_blob_fee := minFee,
           max_blobs_per_tx := maxPerTx, blob_base_cost := baseCost }
  | _ => none

/-- Deserialize the `blobSchedule` map of a `ChainConfig`. -/
def parseBlobSchedule (j : Json) : Option (List (String × BlobParams)) :=
  match j with
  | .obj fields => goBlobSched fields
  | _ => none
where
  /-- Parse each entry of the blob-schedule object in turn. -/
  goBlobSched : List (String × Json) → Option (List (String × BlobParams))
    | [] => some []
    | (k, v) :: rest => do
      let b ← BlobParams.fromJson v
      let r ← goBlobSched rest
      some (btreeInsert k b r)

/-- Intermediate state of `ChainConfig` deserialization: the known fields
seen so far plus the accumulated unknown (flattened) fields. -/
structure CCBuild where
  chain_id : Option Nat := none
  homestead_block : Option Nat := none
  london_block : Option Nat := none
  shanghai_time : Option Nat := none
  cancun_time : Option Nat := none
  prague_time : Option Nat := none
  blob_schedule : List (String × BlobParams) := []
  extra_fields : List (String × Json) := []

/-- Process the fields of a JSON object into a `ChainConfig` build state:
known camelCase keys must parse at their declared type, every unknown key is
collected into the flattened `extra_fields` map. -/
def ccFields : List (String × Json) → CCBuild → Except String CCBuild
  | [], st => .ok st
  | (k, v) :: rest, st =>
    if k = "chainId" then
      match parseU64 v with
      | some n => ccFields rest { st with chain_id := some n }
      | none => .error ("invalid type for chainId")
    else if k = "homesteadBlock" then
      match parseOptU64 v with
      | some o => ccFields rest { st with homestead_block := o }
      | none => .error ("invalid type for homesteadBlock")
    else if k = "londonBlock" then
      match parseOptU64 v with
      | some o => ccFields rest { st with london_block := o }
      | none => .error ("invalid type for londonBlock")
    else if k = "shanghaiTime" then
      match parseOptU64 v with
      | some o => ccFields rest { st with shanghai_time := o }
      | none => .error ("invalid type for shanghaiTime")
    else if k = "cancunTime" then
      match parseOptU64 v with
      | some o => ccFields rest { st with cancun_time := o }
      | none => .error ("invalid type for cancunTime")
    else if k = "pragueTime" then
      match parseOptU64 v with
      | some o => ccFields rest { st with prague_time := o }
      | none => .error ("invalid type for pragueTime")
    else if k = "blobSchedule" then
      match parseBlobSchedule v with
      | some sched => ccFields rest { st with blob_schedule := sched }
      | none => .error ("invalid type for blobSchedule")
    else
      ccFields rest { st with extra_fields := btreeInsert k v st.extra_fields }

/-- Model of `Deserialize` for `ChainConfig`: the value must be an object,
the numeric chain id is required, fork-activation fields are optional, and
unrecognized keys flow into the flattened extension-metadata map. -/
def jsonToChainConfig (j : Json) : Except String ChainConfig :=
  match j with
  | .obj fields => do
    let st ← ccFields fields {}
    match st.chain_id with
    | some cid =>
      .ok { chain_id := cid,
            homestead_block := st.homestead_block,
            london_block := st.london_block,
            shanghai_time := st.shanghai_time,
            cancun_time := st.cancun_time,
            prague_time := st.prague_time,
            blob_schedule := st.blob_schedule,
            extra_fields := st.extra_fields }
    | none => .error ("missing field chainId")
  | _ => .error ("expected an object")

/-- Model of `serde_json::from_str::<ChainConfig>`: parse the JSON text, then
deserialize the configuration record from it. -/
def serde_json_from_str (s : String) : Except String ChainConfig := do
  let j ← parseJsonText s
  jsonToChainConfig j

/-- Model of `impl FromStr for Genesis`: parse a serialized configuration
payload and wrap the record in the `Custom` variant; a parse failure is the
parser's structured error. -/
def Genesis.from_str (s : String) : Except String Genesis :=
  match serde_json_from_str s with
  | .ok config => .ok (Genesis.Custom config)
  | .error e => .error e

example : Genesis.from_str ("\x7b\"chainId\": 7, \"evolve\": \x7b\"mintAdmin\": null\x7d\x7d")
    = .ok (Genesis.Custom
            { chain_id := 7,
              extra_fields := [("evolve", Json.obj [("mintAdmin", Json.null)])] }) := rfl

example : Genesis.from_str ("not json") = .error ("invalid JSON") := rfl

/-- Condition under which a hardfork activates, modelling
`reth_chainspec::ForkCondition`. -/
inductive ForkCondition where
  | Block (number : Nat)
  | Timestamp (time : Nat)
  | TTD (activation_block_number : Nat) (total_difficulty : Nat)
  | Never
deriving Repr, DecidableEq

/-- Modelled from the spec: `reth_chainspec`'s mainnet Ethereum hardfork
schedule constant `EthereumHardfork::mainnet()` (external), the ordered
hardfork activation set for chain id 1. -/
def EthereumHardfork.mainnet : List (String × ForkCondition) :=
  [("Frontier", .Block 0),
   ("Homestead", .Block 1150000),
   ("Dao", .Block 1920000),
   ("Tangerine", .Block 2463000),
   ("SpuriousDragon", .Block 2675000),
   ("Byzantium", .Block 4370000),
   ("Constantinople", .Block 7280000),
   ("Petersburg", .Block 7280000),
   ("Istanbul", .Block 9069000),
   ("MuirGlacier", .Block 9200000),
   ("Berlin", .Block 12244000),
   ("London", .Block 12965000),
   ("ArrowGlacier", .Block 13773000),
   ("GrayGlacier", .Block 15050000),
   ("Paris", .TTD 15537394 58750000000000000000000),
   ("Shanghai", .Timestamp 1681338455),
   ("Cancun", .Timestamp 1710338135),
   ("Prague", .Timestamp 1746612311),
   ("Osaka", .Timestamp 1764798935)]

/-- Modelled from the spec: `EthereumHardfork::sepolia()` (external). -/
def EthereumHardfork.sepolia : List (String × ForkCondition) :=
  [("Frontier", .Block 0),
   ("Homestead", .Block 0),
   ("Tangerine", .Block 0),
   ("SpuriousDragon", .Block 0),
   ("Byzantium", .Block 0),
   ("Constantinople", .Block 0),
   ("Petersburg", .Block 0),
   ("Istanbul", .Block 0),
   ("Berlin", .Block 0),
   ("London", .Block 0),
   ("Paris", .TTD 1735371 17000000000000000),
   ("Shanghai", .Timestamp 1677557088),
   ("Cancun", .Timestamp 1706655072),
   ("Prague", .Timestamp 1741159776),
   ("Osaka", .Timestamp 1760427360)]

/-- Modelled from the spec: `EthereumHardfork::holesky()` (external). -/
def EthereumHardfork.holesky : List (String × ForkCondition) :=
  [("Frontier", .Block 0),
   ("Homestead", .Block 0),
   ("Tangerine", .Block 0),
   ("SpuriousDragon", .Block 0),
   ("Byzantium", .Block 0),
   ("Constantinople", .Block 0),
   ("Petersburg", .Block 0),
   ("Istanbul", .Block 0),
   ("Berlin", .Block 0),
   ("London", .Block 0),
   ("Paris", .TTD 0 0),
   ("Shanghai", .Timestamp 1696000704),
   ("Cancun", .Timestamp 1707305664),
   ("Prague", .Timestamp 1740434112),
   ("Osaka", .Timestamp 1759308480)]

/-- Modelled from the spec: the external OP-mainnet hardfork schedule
constant `reth_optimism_forks::OP_MAINNET_HARDFORKS`. -/
def OP_MAINNET_HARDFORKS : List (String × ForkCondition) :=
  [("Frontier", .Block 0),
   ("Homestead", .Block 0),
   ("Berlin", .Block 3950000),
   ("London", .Block 105235063),
   ("Paris", .TTD 105235063 0),
   ("Bedrock", .Block 105235063),
   ("Regolith", .Timestamp 0),
   ("Shanghai", .Timestamp 1704992401),
   ("Canyon", .Timestamp 1704992401),
   ("Cancun", .Timestamp 1710374401),
   ("Ecotone", .Timestamp 1710374401),
   ("Fjord", .Timestamp 1720627201),
   ("Granite", .Timestamp 1726070401),
   ("Holocene", .Timestamp 1736445601),
   ("Prague", .Timestamp 1746806401),
   ("Isthmus", .Timestamp 1746806401)]

/-- Model of `reth_chainspec::BaseFeeParams`: the EIP-1559 parameter pair. -/
structure BaseFeeParams where
  max_change_denominator : Nat
  elasticity_multiplier : Nat
deriving Repr, DecidableEq

/-- Modelled from the spec: `BaseFeeParams::ethereum()` (external constant). -/
def BaseFeeParams.ethereum : BaseFeeParams :=
  { max_change_denominator := 8, elasticity_multiplier := 2 }

/-- Modelled from the spec: `BaseFeeParams::optimism()` (external constant). -/
def BaseFeeParams.optimism : BaseFeeParams :=
  { max_change_denominator := 50, elasticity_multiplier := 6 }

/-- Modelled from the spec: `BaseFeeParams::optimism_canyon()` (external
constant). -/
def BaseFeeParams.optimism_canyon : BaseFeeParams :=
  { max_change_denominator := 250, elasticity_multiplier := 6 }

/-- Model of `reth_chainspec::BaseFeeParamsKind`: either one constant
parameter pair or a schedule keyed by activation boundary. -/
inductive BaseFeeParamsKind where
  | Constant (params : BaseFeeParams)
  | Variable (forks : List (String × BaseFeeParams))
deriving Repr, DecidableEq

/-- Modelled from the spec: `BlobParams::cancun()` (external constant). -/
def BlobParams.cancun : BlobParams :=
  { target_blob_count := 3, max_blob_count := 6, update_fraction := 3338477,
    min_blob_fee := 1, max_blobs_per_tx := 6, blob_base_cost := 0 }

/-- Modelled from the spec: `BlobParams::prague()` (external constant). -/
def BlobParams.prague : BlobParams :=
  { target_blob_count := 6, max_blob_count := 9, update_fraction := 5007716,
    min_blob_fee := 1, max_blobs_per_tx := 9, blob_base_cost := 0 }

/-- Modelled from the spec: `BlobParams::osaka()` (external constant). -/
def BlobParams.osaka : BlobParams :=
  { target_blob_count := 6, max_blob_count := 9, update_fraction := 5007716,
    min_blob_fee := 1, max_blobs_per_tx := 6, blob_base_cost := 8192 }

/-- Modelled from the spec: `BlobParams::bpo1()` (external constant), the
first scheduled blob-parameter-only change. -/
def BlobParams.bpo1 : BlobParams :=
  { target_blob_count := 10, max_blob_count := 15, update_fraction := 8346193,
    min_blob_fee := 1, max_blobs_per_tx := 6, blob_base_cost := 8192 }

/-- Modelled from the spec: `BlobParams::bpo2()` (external constant), the
second scheduled blob-parameter-only change. -/
def BlobParams.bpo2 : BlobParams :=
  { target_blob_count := 14, max_blob_count := 21, update_fraction := 11684671,
    min_blob_fee := 1, max_blobs_per_tx := 6, blob_base_cost := 8192 }

/-- Model of `alloy_eips::BlobScheduleBlobParams`: the per-hardfork blob-fee
schedule plus timestamp-scheduled overrides. -/
structure BlobScheduleBlobParams where
  cancun : BlobParams
  prague : BlobParams
  osaka : BlobParams
  scheduled : List (Nat × BlobParams)
deriving Repr, DecidableEq

/-- Model of `BlobScheduleBlobParams::default()`: the standard Ethereum
per-fork parameters with no scheduled overrides. -/
def BlobScheduleBlobParams.default : BlobScheduleBlobParams :=
  { cancun := BlobParams.cancun, prague := BlobParams.prague,
    osaka := BlobParams.osaka, scheduled := [] }

/-- Model of `BlobScheduleBlobParams::with_scheduled`: install the given
timestamp-keyed blob-parameter overrides. -/
def BlobScheduleBlobParams.with_scheduled (b : BlobScheduleBlobParams)
    (xs : List (Nat × BlobParams)) : BlobScheduleBlobParams :=
  { b with scheduled := xs }

/-- Modelled from the spec: fixed mainnet timestamp of the BPO1 change
(external constant `MAINNET_BPO1_TIMESTAMP`). -/
def MAINNET_BPO1_TIMESTAMP : Nat := 1767139200

/-- Modelled from the spec: fixed mainnet timestamp of the BPO2 change
(external constant `MAINNET_BPO2_TIMESTAMP`). -/
def MAINNET_BPO2_TIMESTAMP : Nat := 1770249600

/-- Modelled from the spec: fixed sepolia timestamp of the BPO1 change. -/
def SEPOLIA_BPO1_TIMESTAMP : Nat := 1764938976

/-- Modelled from the spec: fixed sepolia timestamp of the BPO2 change. -/
def SEPOLIA_BPO2_TIMESTAMP : Nat := 1768049376

/-- Modelled from the spec: fixed holesky timestamp of the BPO1 change. -/
def HOLESKY_BPO1_TIMESTAMP : Nat := 1763820096

/-- Modelled from the spec: fixed holesky timestamp of the BPO2 change. -/
def HOLESKY_BPO2_TIMESTAMP : Nat := 1766930496

/-- Modelled from the spec: `reth_chainspec::MAINNET_PRUNE_DELETE_LIMIT`
(external constant), the mainnet state-pruning limit. -/
def MAINNET_PRUNE_DELETE_LIMIT : Nat := 20000

/-- Numeric chain id constants of `alloy_primitives::Chain`. -/
def Chain.mainnet : Nat := 1

/-- Sepolia chain id (`Chain::sepolia()`). -/
def Chain.sepolia : Nat := 11155111

/-- Holesky chain id (`Chain::holesky()`). -/
def Chain.holesky : Nat := 17000

/-- OP mainnet chain id (`Chain::optimism_mainnet()`). -/
def Chain.optimism_mainnet : Nat := 10

/-- Model of `alloy_genesis::Genesis`: the embedded configuration record plus
the remaining genesis fields, which this code always leaves at their
defaults. -/
structure AlloyGenesis where
  config : ChainConfig
  nonce : Nat := 0
  timestamp : Nat := 0
  gas_limit : Nat := 0
  difficulty : Nat := 0
deriving Repr

instance : Inhabited AlloyGenesis := ⟨{ config := default }⟩

/-- Model of `reth_chainspec::ChainSpec`: the concrete protocol ruleset, with
the fields the source constructs (placeholder types stand for the header and
deposit-contract components this code always defaults). -/
structure ChainSpec where
  chain : Nat
  genesis : AlloyGenesis
  genesis_header : Unit
  paris_block_and_final_difficulty : Option (Nat × Nat)
  hardforks : List (String × ForkCondition)
  deposit_contract : Option Nat
  base_fee_params : BaseFeeParamsKind
  prune_delete_limit : Nat
  blob_params : BlobScheduleBlobParams
deriving Repr

/-- Translate the configuration record's fork-activation rules into an
ordered hardfork set, one entry per activated fork. -/
def hardforksFromConfig (c : ChainConfig) : List (String × ForkCondition) :=
  (match c.homestead_block with
   | some n => [(("Homestead" : String), ForkCondition.Block n)]
   | none => [])
  ++ (match c.london_block with
      | some n => [(("London" : String), ForkCondition.Block n)]
      | none => [])
  ++ (match c.shanghai_time with
      | some t => [(("Shanghai" : String), ForkCondition.Timestamp t)]
      | none => [])
  ++ (match c.cancun_time with
      | some t => [(("Cancun" : String), ForkCondition.Timestamp t)]
      | none => [])
  ++ (match c.prague_time with
      | some t => [(("Prague" : String), ForkCondition.Timestamp t)]
      | none => [])

/-- Translate the configuration record's blob-fee schedule into the ruleset's
blob-parameter schedule, defaulting any fork it does not mention. -/
def blobScheduleFromConfig (sched : List (String × BlobParams)) : BlobScheduleBlobParams :=
  { cancun := (btreeLookup ("cancun") sched).getD BlobParams.cancun,
    prague := (btreeLookup ("prague") sched).getD BlobParams.prague,
    osaka := (btreeLookup ("osaka") sched).getD BlobParams.osaka,
    scheduled := [] }

/-- Modelled from the spec: the execution engine's generic genesis-to-ruleset
transform `ChainSpec::from_genesis` (external, from `reth_chainspec`): a
ruleset built directly from the embedded configuration record's
fork-activation rules and blob schedule, with no network-specific defaults
injected. -/
def ChainSpec.from_genesis (g : AlloyGenesis) : ChainSpec :=
  { chain := g.config.chain_id,
    genesis := g,
    genesis_header := (),
    paris_block_and_final_difficulty := none,
    hardforks := hardforksFromConfig g.config,
    deposit_contract := none,
    base_fee_params := .Constant BaseFeeParams.ethereum,
    prune_delete_limit := MAINNET_PRUNE_DELETE_LIMIT,
    blob_params := blobScheduleFromConfig g.config.blob_schedule }

/-- Modelled from the spec: the bundled canonical Linea genesis payload
(`include_str` of `bin/host/genesis/59144.json`, whose full text is not part
of the provided sources; the Genesis Loader supplies it as static read-only
data). -/
def LINEA_GENESIS_JSON : String :=
  "\x7b\"config\": \x7b\"chainId\": 59144, \"homesteadBlock\": 0, \"londonBlock\": 0\x7d, \"gasLimit\": 61000000, \"difficulty\": 2\x7d"

/-- Model of `genesis_from_json`: parse an `alloy_genesis::Genesis` from a
JSON string; the embedded `config` object is required and the remaining
genesis fields default when absent. -/
def genesis_from_json (json : String) : Except String AlloyGenesis := do
  let j ← parseJsonText json
  match j with
  | .obj fields =>
    match btreeLookup ("config") fields with
    | some cj => do
      let config ← jsonToChainConfig cj
      let nonce := ((btreeLookup ("nonce") fields).bind parseU64).getD 0
      let timestamp := ((btreeLookup ("timestamp") fields).bind parseU64).getD 0
      let gasLimit := ((btreeLookup ("gasLimit") fields).bind parseU64).getD 0
      let difficulty := ((btreeLookup ("difficulty") fields).bind parseU64).getD 0
      .ok { config := config, nonce := nonce, timestamp := timestamp,
            gas_limit := gasLimit, difficulty := difficulty }
    | none => .error ("missing field config")
  | _ => .error ("expected an object")

/-- Model of `impl TryFrom<&Genesis> for ChainSpec`: the primary
(Ethereum-family) ruleset derivation. Named variants receive their hardcoded
rulesets, Linea derives from the bundled genesis payload, `Custom` derives
through the generic transform, and the secondary-family-only variant
`OpMainnet` is an invalid conversion. -/
def ChainSpec.try_from (value : Genesis) : Except ChainSpecError ChainSpec :=
  match value with
  | .Mainnet =>
    .ok { chain := Chain.mainnet,
          genesis := default,
          genesis_header := (),
          paris_block_and_final_difficulty := none,
          hardforks := EthereumHardfork.mainnet,
          deposit_contract := none,
          base_fee_params := .Constant BaseFeeParams.ethereum,
          prune_delete_limit := MAINNET_PRUNE_DELETE_LIMIT,
          blob_params := BlobScheduleBlobParams.default.with_scheduled
            [(MAINNET_BPO1_TIMESTAMP, BlobParams.bpo1),
             (MAINNET_BPO2_TIMESTAMP, BlobParams.bpo2)] }
  | .Sepolia =>
    .ok { chain := Chain.sepolia,
          genesis := default,
          genesis_header := (),
          paris_block_and_final_difficulty := none,
          hardforks := EthereumHardfork.sepolia,
          deposit_contract := none,
          base_fee_params := .Constant BaseFeeParams.ethereum,
          prune_delete_limit := 10000,
          blob_params := BlobScheduleBlobParams.default.with_scheduled
            [(SEPOLIA_BPO1_TIMESTAMP, BlobParams.bpo1),
             (SEPOLIA_BPO2_TIMESTAMP, BlobParams.bpo2)] }
  | .Holesky =>
    .ok { chain := Chain.holesky,
          genesis := default,
          genesis_header := (),
          paris_block_and_final_difficulty := none,
          hardforks := EthereumHardfork.holesky,
          deposit_contract := none,
          base_fee_params := .Constant BaseFeeParams.ethereum,
          prune_delete_limit := 10000,
          blob_params := BlobScheduleBlobParams.default.with_scheduled
            [(HOLESKY_BPO1_TIMESTAMP, BlobParams.bpo1),
             (HOLESKY_BPO2_TIMESTAMP, BlobParams.bpo2)] }
  | .OpMainnet => .error .InvalidConversion
  | .Linea =>
    match genesis_from_json LINEA_GENESIS_JSON with
    | .ok g => .ok (ChainSpec.from_genesis g)
    | .error e => .error (.MalformedPayload e)
  | .Custom config =>
    .ok (ChainSpec.from_genesis { (default : AlloyGenesis) with config := config })

/-- Model of `reth_optimism_chainspec::OpChainSpec`: the secondary-family
ruleset, wrapping a `ChainSpec`. -/
structure OpChainSpec where
  inner : ChainSpec
deriving Repr

/-- Modelled from the spec: the secondary family's generic genesis-to-ruleset
transform `OpChainSpec::from_genesis` (external). -/
def OpChainSpec.from_genesis (g : AlloyGenesis) : OpChainSpec :=
  { inner := ChainSpec.from_genesis g }

/-- Model of `impl TryFrom<&Genesis> for OpChainSpec`: the secondary
(OP-family) ruleset derivation. Only `OpMainnet` (hardcoded) and `Custom`
(generic transform) are defined; every other variant is an invalid
conversion. -/
def OpChainSpec.try_from (value : Genesis) : Except ChainSpecError OpChainSpec :=
  match value with
  | .OpMainnet =>
    .ok { inner :=
          { chain := Chain.optimism_mainnet,
            genesis := default,
            genesis_header := (),
            paris_block_and_final_difficulty := none,
            hardforks := OP_MAINNET_HARDFORKS,
            deposit_contract := none,
            base_fee_params := .Variable
              [(("London" : String), BaseFeeParams.optimism),
               (("Canyon" : String), BaseFeeParams.optimism_canyon)],
            prune_delete_limit := 10000,
            blob_params := BlobScheduleBlobParams.default } }
  | .Custom config =>
    .ok (OpChainSpec.from_genesis { (default : AlloyGenesis) with config := config })
  | _ => .error .InvalidConversion

example :
    (ChainSpec.try_from Genesis.Linea).isOk = true := rfl

/-- Encode a string for the binary codec: length, then character codes
(bincode's length-prefixed strings). -/
def strEnc (s : String) : List Nat := s.data.length :: s.data.map Char.toNat

/-- Encode an optional number: a presence tag, then the value (bincode's
`Option` encoding). -/
def optEnc : Option Nat → List Nat
  | none => [0]
  | some n => [1, n]

/-- Encode an integer as sign tag and magnitude. -/
def intEnc : Int → List Nat
  | .ofNat m => [0, m]
  | .negSucc m => [1, m + 1]

/-- Encode blob-fee parameters field by field. -/
def blobParamsEnc (b : BlobParams) : List Nat :=
  [b.target_blob_count, b.max_blob_count, b.update_fraction,
   b.min_blob_fee, b.max_blobs_per_tx, b.blob_base_cost]

mutual
/-- Model of the serde/bincode serialization of a JSON value: tagged,
length-prefixed tokens. -/
def jsonEnc : Json → List Nat
  | .null => [0]
  | .bool b => [1, cond b 1 0]
  | .num n => 2 :: intEnc n
  | .str s => 3 :: strEnc s
  | .arr xs => 4 :: xs.length :: jsonEncList xs
  | .obj fs => 5 :: fs.length :: jsonEncFields fs

/-- Encode the elements of a JSON array in order. -/
def jsonEncList : List Json → List Nat
  | [] => []
  | x :: xs => jsonEnc x ++ jsonEncList xs

/-- Encode the fields of a JSON object in order, each as key then value. -/
def jsonEncFields : List (String × Json) → List Nat
  | [] => []
  | (k, v) :: fs => strEnc k ++ jsonEnc v ++ jsonEncFields fs
end

mutual
/-- Structural size of a JSON value, a lower bound on the decoding fuel the
codec needs. -/
def jsonSize : Json → Nat
  | .null => 1
  | .bool _ => 1
  | .num _ => 1
  | .str _ => 1
  | .arr xs => 1 + jsonListSize xs
  | .obj fs => 1 + jsonFieldsSize fs

/-- Combined size of a list of JSON values. -/
def jsonListSize : List Json → Nat
  | [] => 0
  | x :: xs => 1 + jsonSize x + jsonListSize xs

/-- Combined size of a list of JSON object fields. -/
def jsonFieldsSize : List (String × Json) → Nat
  | [] => 0
  | f :: fs => 1 + jsonSize f.2 + jsonFieldsSize fs
end

/-- Read exactly `n` tokens off the front of the stream. -/
def readN : Nat → List Nat → Option (List Nat × List Nat)
  | 0, ts => some ([], ts)
  | Nat.succ _, [] => none
  | Nat.succ n, t :: ts => (readN n ts).map (fun p => (t :: p.1, p.2))

/-- Decode an optional number. -/
def optDec : List Nat → Option (Option Nat × List Nat)
  | 0 :: r => some (none, r)
  | 1 :: n :: r => some (some n, r)
  | _ => none

mutual
/-- Decode a JSON value from the token stream, fueled for termination. -/
def jsonDec : Nat → List Nat → Option (Json × List Nat)
  | 0, _ => none
  | Nat.succ f, ts =>
    match ts with
    | 0 :: r => some (.null, r)
    | 1 :: b :: r => some (.bool (b == 1), r)
    | 2 :: 0 :: m :: r => some (.num (Int.ofNat m), r)
    | 2 :: 1 :: m :: r => some (.num (-(m : Int)), r)
    | 3 :: len :: r =>
      (readN len r).map (fun p => (.str (String.mk (p.1.map Char.ofNat)), p.2))
    | 4 :: n :: r => (jsonDecList f n r).map (fun p => (.arr p.1, p.2))
    | 5 :: n :: r => (jsonDecFields f n r).map (fun p => (.obj p.1, p.2))
    | _ => none
termination_by structural f => f

/-- Decode `n` JSON values in sequence. -/
def jsonDecList : Nat → Nat → List Nat → Option (List Json × List Nat)
  | _, 0, ts => some ([], ts)
  | 0, Nat.succ _, _ => none
  | Nat.succ f, Nat.succ n, ts => do
    let (x, r) ← jsonDec f ts
    let (xs, r2) ← jsonDecList f n r
    some (x :: xs, r2)
termination_by structural f => f

/-- Decode `n` JSON object fields in sequence, each a key then a value. -/
def jsonDecFields : Nat → Nat → List Nat → Option (List (String × Json) × List Nat)
  | _, 0, ts => some ([], ts)
  | 0, Nat.succ _, _ => none
  | Nat.succ f, Nat.succ n, ts =>
    match ts with
    | len :: r => do
      let (cs, r1) ← readN len r
      let (v, r2) ← jsonDec f r1
      let (fs, r3) ← jsonDecFields f n r2
      some ((String.mk (cs.map Char.ofNat), v) :: fs, r3)
    | [] => none
termination_by structural f => f
end

/-- Decode `n` blob-schedule entries in sequence. -/
def blobEntriesDec : Nat → List Nat → Option (List (String × BlobParams) × List Nat)
  | 0, ts => some ([], ts)
  | Nat.succ n, ts =>
    match ts with
    | len :: r => do
      let (cs, r1) ← readN len r
      match r1 with
      | t1 :: t2 :: t3 :: t4 :: t5 :: t6 :: r2 => do
        let (rest, r3) ← blobEntriesDec n r2
        some ((String.mk (cs.map Char.ofNat), ⟨t1, t2, t3, t4, t5, t6⟩) :: rest, r3)
      | _ => none
    | [] => none

/-- Encode the blob-schedule entries in order. -/
def blobEntriesEnc : List (String × BlobParams) → List Nat
  | [] => []
  | (k, b) :: rest => strEnc k ++ blobParamsEnc b ++ blobEntriesEnc rest

/-- Encode a configuration record field by field (bincode's struct encoding,
via the serde-bincode-compatible representation). -/
def chainConfigEnc (c : ChainConfig) : List Nat :=
  c.chain_id
    :: (optEnc c.homestead_block ++ optEnc c.london_block
      ++ optEnc c.shanghai_time ++ optEnc c.cancun_time ++ optEnc c.prague_time
      ++ (c.blob_schedule.length :: blobEntriesEnc c.blob_schedule)
      ++ (c.extra_fields.length :: jsonEncFields c.extra_fields))

/-- Decode a configuration record; the fuel bounds the nesting depth of the
extension-metadata values. -/
def chainConfigDec (f : Nat) (ts : List Nat) : Option (ChainConfig × List Nat) :=
  match ts with
  | cid :: r0 => do
    let (hb, r1) ← optDec r0
    let (lb, r2) ← optDec r1
    let (st, r3) ← optDec r2
    let (ct, r4) ← optDec r3
    let (pt, r5) ← optDec r4
    match r5 with
    | bn :: r6 => do
      let (bs, r7) ← blobEntriesDec bn r6
      match r7 with
      | en :: r8 => do
        let (efs, r9) ← jsonDecFields f en r8
        some ({ chain_id := cid, homestead_block := hb, london_block := lb,
                shanghai_time := st, cancun_time := ct, prague_time := pt,
                blob_schedule := bs, extra_fields := efs }, r9)
      | [] => none
    | [] => none
  | [] => none

/-- Model of `bincode::serialize::<Genesis>`: variant tag in declaration
order, then for `Custom` the configuration record. -/
def bincode_serialize (g : Genesis) : List Nat :=
  match g with
  | .Mainnet => [0]
  | .OpMainnet => [1]
  | .Sepolia => [2]
  | .Holesky => [3]
  | .Linea => [4]
  | .Custom c => 5 :: chainConfigEnc c

/-- Model of `bincode::deserialize::<Genesis>`: the inverse of
`bincode_serialize`, rejecting trailing bytes. -/
def bincode_deserialize (ts : List Nat) : Option Genesis :=
  match ts with
  | [0] => some .Mainnet
  | [1] => some .OpMainnet
  | [2] => some .Sepolia
  | [3] => some .Holesky
  | [4] => some .Linea
  | 5 :: r =>
    (chainConfigDec (2 * ts.length) r).bind
      (fun p => if p.2.isEmpty then some (.Custom p.1) else none)
  | _ => none

/-- Custom configuration with a well-formed "evolve" overlay section, used
as a concrete witness. -/
def evolveSampleConfig : ChainConfig :=
  { chain_id := 7,
    extra_fields :=
      [("evolve", Json.obj
        [("mintAdmin", Json.str ("0xaaaaaaaaaaaaaaaaaaaaaaaaaaaaaaaaaaaaaaaa")),
         ("mintPrecompileActivationHeight", Json.num 100)])] }

/-- Characters with equal code points are equal. -/
theorem char_toNat_injective {a b : Char} (h : a.toNat = b.toNat) : a = b := by
  apply Char.eq_of_val_eq
  apply UInt32.eq_of_val_eq
  apply Fin.ext
  exact h

/-- Strings with equal character lists are equal. -/
theorem string_data_injective {s t : String} (h : s.data = t.data) : s = t := by
  cases s; cases t; exact congrArg String.mk h

/-- The key order is irreflexive. -/
theorem charListLt_irrefl : ∀ xs, charListLt xs xs = false
  | [] => rfl
  | c :: cs => by simp [charListLt, charListLt_irrefl cs]

/-- The key order is asymmetric. -/
theorem charListLt_asymm : ∀ {xs ys}, charListLt xs ys = true → charListLt ys xs = false
  | [], [], h => by simp [charListLt] at h
  | [], _ :: _, _ => rfl
  | _ :: _, [], h => by simp [charListLt] at h
  | c :: cs, d :: ds, h => by
    by_cases hcd : c.toNat < d.toNat
    · simp [charListLt, hcd, Nat.lt_asymm hcd]
    · by_cases hdc : d.toNat < c.toNat
      · simp [charListLt, hcd, hdc] at h
      · simp only [charListLt, if_neg hcd, if_neg hdc] at h ⊢
        exact charListLt_asymm h

/-- The key order is transitive. -/
theorem charListLt_trans : ∀ {xs ys zs},
    charListLt xs ys = true → charListLt ys zs = true → charListLt xs zs = true
  | [], [], _, h, _ => by simp [charListLt] at h
  | _ :: _, [], _, h, _ => by simp [charListLt] at h
  | [], _ :: _, _ :: _, _, _ => rfl
  | [], _ :: _, [], _, h2 => by simp [charListLt] at h2
  | _ :: _, _ :: _, [], _, h2 => by simp [charListLt] at h2
  | c :: cs, d :: ds, e :: es, h1, h2 => by
    by_cases hcd : c.toNat < d.toNat
    · by_cases hde : d.toNat < e.toNat
      · simp [charListLt, Nat.lt_trans hcd hde]
      · by_cases hed : e.toNat < d.toNat
        · simp [charListLt, hde, hed] at h2
        · have : d.toNat = e.toNat := Nat.le_antisymm (Nat.le_of_not_lt hed) (Nat.le_of_not_lt hde)
          simp [charListLt, this ▸ hcd]
    · by_cases hdc : d.toNat < c.toNat
      · simp [charListLt, hcd, hdc] at h1
      · have hce : c.toNat = d.toNat := Nat.le_antisymm (Nat.le_of_not_lt hdc) (Nat.le_of_not_lt hcd)
        simp only [charListLt, if_neg hcd, if_neg hdc] at h1
        by_cases hde : d.toNat < e.toNat
        · simp [charListLt, hce ▸ hde]
        · by_cases hed : e.toNat < d.toNat
          · simp [charListLt, hde, hed] at h2
          · simp only [charListLt, if_neg hde, if_neg hed] at h2
            simp only [charListLt, if_neg (hce ▸ hde), if_neg (hce ▸ hed)]
            exact charListLt_trans h1 h2

/-- Keys that are not ordered either way are equal. -/
theorem charListLt_conn : ∀ {xs ys},
    charListLt xs ys = false → charListLt ys xs = false → xs = ys
  | [], [], _, _ => rfl
  | [], _ :: _, h, _ => by simp [charListLt] at h
  | _ :: _, [], _, h => by simp [charListLt] at h
  | c :: cs, d :: ds, h1, h2 => by
    by_cases hcd : c.toNat < d.toNat
    · simp [charListLt, hcd] at h1
    · by_cases hdc : d.toNat < c.toNat
      · simp [charListLt, hdc] at h2
      · have hce : c = d :=
          char_toNat_injective
            (Nat.le_antisymm (Nat.le_of_not_lt hdc) (Nat.le_of_not_lt hcd))
        simp only [charListLt, if_neg hcd, if_neg hdc] at h1 h2
        exact hce ▸ congrArg (c :: ·) (charListLt_conn h1 h2)

/-- Irreflexivity of the string key order. -/
theorem strLt_irrefl (a : String) : strLt a a = false := charListLt_irrefl a.data

/-- Asymmetry of the string key order. -/
theorem strLt_asymm {a b : String} (h : strLt a b = true) : strLt b a = false :=
  charListLt_asymm h

/-- Transitivity of the string key order. -/
theorem strLt_trans {a b c : String} (h1 : strLt a b = true) (h2 : strLt b c = true) :
    strLt a c = true :=
  charListLt_trans h1 h2

/-- Strings not ordered either way are equal. -/
theorem strLt_conn {a b : String} (h1 : strLt a b = false) (h2 : strLt b a = false) : a = b :=
  string_data_injective (charListLt_conn h1 h2)

/-- Sorted-map insertion commutes for distinct keys: BTreeMap contents do not
depend on insertion order. -/
theorem btreeInsert_comm {α : Type} {k1 k2 : String} (v1 v2 : α) (h : k1 ≠ k2) :
    ∀ l, btreeInsert k1 v1 (btreeInsert k2 v2 l) = btreeInsert k2 v2 (btreeInsert k1 v1 l) := by
  intro l
  induction l with
  | nil =>
    cases h12 : strLt k1 k2 with
    | true =>
      have h21 := strLt_asymm h12
      simp [btreeInsert, h12, h21]
    | false =>
      cases h21 : strLt k2 k1 with
      | true => simp [btreeInsert, h12, h21]
      | false => exact absurd (strLt_conn h12 h21) h
  | cons hd t ih =>
    obtain ⟨k', v'⟩ := hd
    cases h2 : strLt k2 k' with
    | true =>
      cases h1 : strLt k1 k' with
      | true =>
        cases h12 : strLt k1 k2 with
        | true =>
          have h21 := strLt_asymm h12
          simp [btreeInsert, h2, h1, h12, h21]
        | false =>
          cases h21 : strLt k2 k1 with
          | true => simp [btreeInsert, h2, h1, h12, h21]
          | false => exact absurd (strLt_conn h12 h21) h
      | false =>
        cases h1' : strLt k' k1 with
        | true =>
          have h21 : strLt k2 k1 = true := strLt_trans h2 h1'
          have h12 := strLt_asymm h21
          simp [btreeInsert, h2, h1, h1', h12, h21]
        | false =>
          have hk : k1 = k' := strLt_conn h1 h1'
          subst hk
          have h12 := strLt_asymm h2
          simp [btreeInsert, h2, h1, h1', h12]
    | false =>
      cases h2' : strLt k' k2 with
      | true =>
        cases h1 : strLt k1 k' with
        | true =>
          have h12 : strLt k1 k2 = true := strLt_trans h1 h2'
          have h21 := strLt_asymm h12
          simp [btreeInsert, h2, h2', h1, h12, h21]
        | false =>
          cases h1' : strLt k' k1 with
          | true => simp [btreeInsert, h2, h2', h1, h1', ih]
          | false =>
            have hk : k1 = k' := strLt_conn h1 h1'
            subst hk
            simp [btreeInsert, h2, h2', h1, h1']
      | false =>
        have hk : k2 = k' := strLt_conn h2 h2'
        subst hk
        cases h1 : strLt k1 k2 with
        | true =>
          have h21 := strLt_asymm h1
          simp [btreeInsert, h1, h21, strLt_irrefl]
        | false =>
          cases h21 : strLt k2 k1 with
          | true => simp [btreeInsert, h1, h21, strLt_irrefl]
          | false => exact absurd (strLt_conn h1 h21) h

/-- Serialization through the serde data model succeeds on every JSON value
(and list, and object field list): `Value` maps always carry string keys, so
the serializer's only error branch is unreachable. -/
theorem serWrite_toSer_ok : ∀ f : Nat,
    (∀ j, jsonSize j ≤ f → ∃ s, serWrite (Json.toSer j) = .ok s)
  ∧ (∀ xs, jsonListSize xs ≤ f → ∃ s, serWriteList (jsonListToSer xs) = .ok s)
  ∧ (∀ fs, jsonFieldsSize fs ≤ f → ∃ s, serWriteEntries (jsonFieldsToSer fs) = .ok s) := by
  intro f
  induction f with
  | zero =>
    refine ⟨?_, ?_, ?_⟩
    · intro j hj; cases j <;> simp [jsonSize] at hj
    · intro xs hxs
      cases xs with
      | nil => simp [jsonListToSer, serWriteList]
      | cons x xs => simp [jsonListSize] at hxs
    · intro fs hfs
      cases fs with
      | nil => simp [jsonFieldsToSer, serWriteEntries]
      | cons f fs => simp [jsonFieldsSize] at hfs
  | succ f ih =>
    obtain ⟨ihj, ihl, ihf⟩ := ih
    refine ⟨?_, ?_, ?_⟩
    · intro j hj
      cases j with
      | null => simp [Json.toSer, serWrite]
      | bool b => cases b <;> simp [Json.toSer, serWrite]
      | num n => simp [Json.toSer, serWrite]
      | str s => simp [Json.toSer, serWrite]
      | arr xs =>
        have hx : jsonListSize xs ≤ f := by simp [jsonSize] at hj; omega
        obtain ⟨s, hs⟩ := ihl xs hx
        simp [Json.toSer, serWrite, hs, bind, Except.bind]
      | obj fs =>
        have hx : jsonFieldsSize fs ≤ f := by simp [jsonSize] at hj; omega
        obtain ⟨s, hs⟩ := ihf fs hx
        simp [Json.toSer, serWrite, hs, bind, Except.bind]
    · intro xs hxs
      cases xs with
      | nil => simp [jsonListToSer, serWriteList]
      | cons x xs' =>
        have hx : jsonSize x ≤ f := by simp [jsonListSize] at hxs; omega
        obtain ⟨sx, hsx⟩ := ihj x hx
        cases xs' with
        | nil => simp [jsonListToSer, serWriteList, hsx, bind, Except.bind]
        | cons y ys =>
          have hy : jsonListSize (y :: ys) ≤ f := by
            simp [jsonListSize] at hxs ⊢; omega
          obtain ⟨sr, hsr⟩ := ihl (y :: ys) hy
          simp [jsonListToSer] at hsr
          simp [jsonListToSer, serWriteList, hsx, hsr, bind, Except.bind]
    · intro fs hfs
      cases fs with
      | nil => simp [jsonFieldsToSer, serWriteEntries]
      | cons kv fs' =>
        obtain ⟨k, v⟩ := kv
        have hv : jsonSize v ≤ f := by simp [jsonFieldsSize] at hfs; omega
        obtain ⟨sv, hsv⟩ := ihj v hv
        cases fs' with
        | nil => simp [jsonFieldsToSer, serWriteEntries, serKey, hsv, bind, Except.bind]
        | cons e es =>
          have he : jsonFieldsSize (e :: es) ≤ f := by
            simp [jsonFieldsSize] at hfs ⊢; omega
          obtain ⟨sr, hsr⟩ := ihf (e :: es) he
          simp [jsonFieldsToSer] at hsr
          simp [jsonFieldsToSer, serWriteEntries, serKey, hsv, hsr, bind, Except.bind]

/-- Serializing a configuration record to JSON bytes always succeeds. -/
theorem serde_json_to_vec_ok (c : ChainConfig) : ∃ s, serde_json_to_vec c = .ok s := by
  obtain ⟨h, _, _⟩ := serWrite_toSer_ok (jsonSize (ChainConfig.toJson c))
  exact h _ le_rfl

/-- C1: resolving each id of the known set 1, 10, 17000, 59144, 11155111
yields the matching named variant Mainnet, OpMainnet, Holesky, Linea,
Sepolia respectively, and every other id fails with ChainNotSupported
carrying exactly that id. -/
theorem chain_id_resolution (id : Nat) :
    (id = 1 → Genesis.try_from id = .ok .Mainnet)
  ∧ (id = 10 → Genesis.try_from id = .ok .OpMainnet)
  ∧ (id = 17000 → Genesis.try_from id = .ok .Holesky)
  ∧ (id = 59144 → Genesis.try_from id = .ok .Linea)
  ∧ (id = 11155111 → Genesis.try_from id = .ok .Sepolia)
  ∧ (id ≠ 1 → id ≠ 10 → id ≠ 17000 → id ≠ 59144 → id ≠ 11155111 →
      Genesis.try_from id = .error (.ChainNotSupported id)) := by
  refine ⟨?_, ?_, ?_, ?_, ?_, ?_⟩
  · rintro rfl; rfl
  · rintro rfl; rfl
  · rintro rfl; rfl
  · rintro rfl; rfl
  · rintro rfl; rfl
  · intro h1 h2 h3 h4 h5
    simp [Genesis.try_from, h1, h2, h3, h4, h5]

/-- Closed instance of C1: resolution of a known and of an unknown id. -/
theorem chain_id_resolution_witness :
    Genesis.try_from 1 = .ok .Mainnet
  ∧ Genesis.try_from 2 = .error (.ChainNotSupported 2) :=
  ⟨(chain_id_resolution 1).1 rfl,
   (chain_id_resolution 2).2.2.2.2.2 (by decide) (by decide) (by decide) (by decide) (by decide)⟩

/-- C2: cross-family derivation always fails with InvalidConversion — the
secondary-family-only variant in the primary family, and every
primary-family-only variant in the secondary family — while Custom converts
in both families. -/
theorem cross_family_conversion :
    ChainSpec.try_from Genesis.OpMainnet = .error .InvalidConversion
  ∧ OpChainSpec.try_from Genesis.Mainnet = .error .InvalidConversion
  ∧ OpChainSpec.try_from Genesis.Sepolia = .error .InvalidConversion
  ∧ OpChainSpec.try_from Genesis.Holesky = .error .InvalidConversion
  ∧ OpChainSpec.try_from Genesis.Linea = .error .InvalidConversion
  ∧ (∀ c : ChainConfig, ∃ s, ChainSpec.try_from (Genesis.Custom c) = .ok s)
  ∧ (∀ c : ChainConfig, ∃ s, OpChainSpec.try_from (Genesis.Custom c) = .ok s) :=
  ⟨rfl, rfl, rfl, rfl, rfl, fun _ => ⟨_, rfl⟩, fun _ => ⟨_, rfl⟩⟩

/-- C3: overlay extraction yields a value exactly when the identity is
Custom with an "evolve" section that deserializes, and yields the absent
value (never an error) for named variants, for Custom without the section,
and for Custom whose section fails to deserialize. -/
theorem evolve_extraction_spec (g : Genesis) :
    ((EvolveConfig.from_genesis g).isSome = true ↔
      ∃ c v, g = Genesis.Custom c ∧ btreeLookup ("evolve") c.extra_fields = some v
        ∧ (EvolveConfig.fromJson v).isSome = true)
  ∧ ((∀ c, g ≠ Genesis.Custom c) → EvolveConfig.from_genesis g = none)
  ∧ (∀ c, g = Genesis.Custom c → btreeLookup ("evolve") c.extra_fields = none →
      EvolveConfig.from_genesis g = none)
  ∧ (∀ c v, g = Genesis.Custom c → btreeLookup ("evolve") c.extra_fields = some v →
      EvolveConfig.fromJson v = none → EvolveConfig.from_genesis g = none) := by
  refine ⟨?_, ?_, ?_, ?_⟩
  · constructor
    · intro h
      cases g with
      | Custom c =>
        simp only [EvolveConfig.from_genesis, EvolveConfig.from_chain_config] at h
        cases hv : btreeLookup ("evolve") c.extra_fields with
        | none => rw [hv] at h; simp at h
        | some v =>
          rw [hv] at h
          exact ⟨c, v, rfl, hv, by simpa using h⟩
      | Mainnet => simp [EvolveConfig.from_genesis] at h
      | OpMainnet => simp [EvolveConfig.from_genesis] at h
      | Sepolia => simp [EvolveConfig.from_genesis] at h
      | Holesky => simp [EvolveConfig.from_genesis] at h
      | Linea => simp [EvolveConfig.from_genesis] at h
    · rintro ⟨c, v, rfl, hv, hj⟩
      simp [EvolveConfig.from_genesis, EvolveConfig.from_chain_config, hv, hj]
  · intro h
    cases g with
    | Custom c => exact absurd rfl (h c)
    | Mainnet => rfl
    | OpMainnet => rfl
    | Sepolia => rfl
    | Holesky => rfl
    | Linea => rfl
  · rintro c rfl hv
    simp [EvolveConfig.from_genesis, EvolveConfig.from_chain_config, hv]
  · rintro c v rfl hv hj
    simp [EvolveConfig.from_genesis, EvolveConfig.from_chain_config, hv, hj]

/-- Closed instance of C3: extraction is present for a Custom identity with
a parseable "evolve" section, and absent for a named variant. -/
theorem evolve_extraction_witness :
    (EvolveConfig.from_genesis (Genesis.Custom evolveSampleConfig)).isSome = true
  ∧ EvolveConfig.from_genesis Genesis.Mainnet = none :=
  ⟨(evolve_extraction_spec (Genesis.Custom evolveSampleConfig)).1.mpr
      ⟨evolveSampleConfig, Json.obj
        [("mintAdmin", Json.str ("0xaaaaaaaaaaaaaaaaaaaaaaaaaaaaaaaaaaaaaaaa")),
         ("mintPrecompileActivationHeight", Json.num 100)], rfl, rfl, rfl⟩,
   (evolve_extraction_spec Genesis.Mainnet).2.1 (fun _ h => Genesis.noConfusion h)⟩

/-- C4: equality and hashing of chain identities agree — equal values hash
identically, and in particular two Custom values whose configuration maps
were built by differently-ordered but semantically equal insertions hash
identically, the hash being a function of the canonical key-sorted
serialized form. -/
theorem genesis_hash_lawful :
    (∀ a b : Genesis, a = b → Genesis.hash a = Genesis.hash b)
  ∧ (∀ (k1 k2 : String) (v1 v2 : Json) (c : ChainConfig), k1 ≠ k2 →
      Genesis.hash (Genesis.Custom
        { c with extra_fields := btreeInsert k1 v1 (btreeInsert k2 v2 c.extra_fields) })
      = Genesis.hash (Genesis.Custom
        { c with extra_fields := btreeInsert k2 v2 (btreeInsert k1 v1 c.extra_fields) })) := by
  refine ⟨fun a b h => h ▸ rfl, fun k1 k2 v1 v2 c h => ?_⟩
  rw [btreeInsert_comm v1 v2 h]

/-- Closed instance of C4: two opposite insertion orders of distinct keys
hash identically. -/
theorem genesis_hash_lawful_witness :
    Genesis.hash Genesis.Mainnet = Genesis.hash Genesis.Mainnet
  ∧ Genesis.hash (Genesis.Custom
      { chain_id := 7,
        extra_fields := btreeInsert ("a") Json.null (btreeInsert ("b") (Json.num 1) []) })
    = Genesis.hash (Genesis.Custom
      { chain_id := 7,
        extra_fields := btreeInsert ("b") (Json.num 1) (btreeInsert ("a") Json.null []) }) :=
  ⟨genesis_hash_lawful.1 Genesis.Mainnet Genesis.Mainnet rfl,
   genesis_hash_lawful.2 ("a") ("b") Json.null (Json.num 1) { chain_id := 7 } (by decide)⟩

/-- C5: resolution, both family derivations, and overlay extraction are
deterministic — equal inputs give equal outputs, there being no hidden
state, clock, or randomness in the model. -/
theorem resolution_deterministic :
    (∀ x y : Nat, x = y → Genesis.try_from x = Genesis.try_from y)
  ∧ (∀ a b : Genesis, a = b → ChainSpec.try_from a = ChainSpec.try_from b)
  ∧ (∀ a b : Genesis, a = b → OpChainSpec.try_from a = OpChainSpec.try_from b)
  ∧ (∀ a b : Genesis, a = b → EvolveConfig.from_genesis a = EvolveConfig.from_genesis b) :=
  ⟨fun _ _ h => h ▸ rfl, fun _ _ h => h ▸ rfl, fun _ _ h => h ▸ rfl, fun _ _ h => h ▸ rfl⟩

/-- Closed instance of C5: two runs on equal concrete inputs agree. -/
theorem resolution_deterministic_witness :
    Genesis.try_from 59144 = Genesis.try_from 59144
  ∧ ChainSpec.try_from Genesis.Mainnet = ChainSpec.try_from Genesis.Mainnet
  ∧ OpChainSpec.try_from Genesis.OpMainnet = OpChainSpec.try_from Genesis.OpMainnet
  ∧ EvolveConfig.from_genesis Genesis.Linea = EvolveConfig.from_genesis Genesis.Linea :=
  ⟨resolution_deterministic.1 59144 59144 rfl,
   resolution_deterministic.2.1 Genesis.Mainnet Genesis.Mainnet rfl,
   resolution_deterministic.2.2.1 Genesis.OpMainnet Genesis.OpMainnet rfl,
   resolution_deterministic.2.2.2 Genesis.Linea Genesis.Linea rfl⟩

/-- C7: primary-family derivation for every Custom identity succeeds and is
exactly the generic genesis-to-ruleset transform applied to a genesis
holding the embedded configuration record with all other fields defaulted. -/
theorem custom_chainspec_via_from_genesis (c : ChainConfig) :
    ChainSpec.try_from (Genesis.Custom c)
      = .ok (ChainSpec.from_genesis { (default : AlloyGenesis) with config := c }) := rfl

/-- C8: the Mainnet ruleset is hardcoded with chain id 1, the mainnet
hardfork schedule, the constant Ethereum base-fee parameters, the mainnet
prune-delete limit, and the BPO1/BPO2 blob-parameter changes scheduled at
the fixed mainnet timestamps. -/
theorem mainnet_ruleset_hardcoded :
    ∃ spec, ChainSpec.try_from Genesis.Mainnet = .ok spec
      ∧ spec.chain = 1
      ∧ spec.hardforks = EthereumHardfork.mainnet
      ∧ spec.base_fee_params = .Constant BaseFeeParams.ethereum
      ∧ spec.prune_delete_limit = MAINNET_PRUNE_DELETE_LIMIT
      ∧ spec.blob_params = BlobScheduleBlobParams.default.with_scheduled
          [(MAINNET_BPO1_TIMESTAMP, BlobParams.bpo1),
           (MAINNET_BPO2_TIMESTAMP, BlobParams.bpo2)] :=
  ⟨_, rfl, rfl, rfl, rfl, rfl, rfl⟩

/-- C9: parsing a serialized configuration payload yields either a Custom
identity carrying exactly the parsed record, or the parser's structured
error — never a named variant and never a partial or default value. -/
theorem from_str_yields_custom_or_error (s : String) :
    (∃ c, Genesis.from_str s = .ok (Genesis.Custom c) ∧ serde_json_from_str s = .ok c)
  ∨ (∃ e, Genesis.from_str s = .error e ∧ serde_json_from_str s = .error e) := by
  cases h : serde_json_from_str s with
  | ok c =>
    refine .inl ⟨c, ?_, rfl⟩
    unfold Genesis.from_str
    rw [h]
  | error e =>
    refine .inr ⟨e, ?_, rfl⟩
    unfold Genesis.from_str
    rw [h]

/-- C10: hashing never panics — the JSON serialization inside the hash
implementation succeeds on every configuration record, so the unwrap's
panic branch is unreachable for every Genesis value. -/
theorem genesis_hash_total (g : Genesis) : (Genesis.hash g).isSome = true := by
  cases g with
  | Mainnet => rfl
  | OpMainnet => rfl
  | Sepolia => rfl
  | Holesky => rfl
  | Linea => rfl
  | Custom c =>
    obtain ⟨s, hs⟩ := serde_json_to_vec_ok c
    simp [Genesis.hash, hs]

/-- Reading back exactly the tokens that were written leaves the tail. -/
theorem readN_append (xs rest : List Nat) : readN xs.length (xs ++ rest) = some (xs, rest) := by
  induction xs with
  | nil => rfl
  | cons x xs ih => simp [readN, ih]

/-- Character codes decode back to the original characters. -/
theorem map_ofNat_toNat (cs : List Char) : (cs.map Char.toNat).map Char.ofNat = cs := by
  induction cs with
  | nil => rfl
  | cons c cs ih => simp [ih, Char.ofNat_toNat]

/-- Reading a string's character codes off the stream leaves the tail. -/
theorem readN_charCodes (cs : List Char) (x : List Nat) :
    readN cs.length (cs.map Char.toNat ++ x) = some (cs.map Char.toNat, x) := by
  have h := readN_append (cs.map Char.toNat) x
  simpa using h

/-- Optional-number round-trip. -/
theorem optDec_optEnc (o : Option Nat) (rest : List Nat) :
    optDec (optEnc o ++ rest) = some (o, rest) := by
  cases o <;> rfl

/-- Blob-schedule entry list round-trip. -/
theorem blobEntriesDec_enc (bs : List (String × BlobParams)) (rest : List Nat) :
    blobEntriesDec bs.length (blobEntriesEnc bs ++ rest) = some (bs, rest) := by
  induction bs with
  | nil => rfl
  | cons kb bs ih =>
    obtain ⟨k, b⟩ := kb
    show blobEntriesDec (bs.length + 1)
        ((strEnc k ++ blobParamsEnc b ++ blobEntriesEnc bs) ++ rest) = _
    simp only [strEnc, blobParamsEnc, List.cons_append, List.append_assoc]
    simp only [blobEntriesDec, readN_charCodes, Option.bind_eq_bind, Option.some_bind]
    simp only [List.nil_append, ih, Option.some_bind, map_ofNat_toNat]

/-- Round-trip of the JSON token codec: decoding an encoded value (or list
of values, or list of object fields) with enough fuel returns the original
and leaves the trailing tokens untouched. -/
theorem jsonCodec_roundtrip : ∀ f : Nat,
    (∀ j rest, jsonSize j ≤ f → jsonDec f (jsonEnc j ++ rest) = some (j, rest))
  ∧ (∀ xs rest, jsonListSize xs ≤ f →
      jsonDecList f xs.length (jsonEncList xs ++ rest) = some (xs, rest))
  ∧ (∀ fs rest, jsonFieldsSize fs ≤ f →
      jsonDecFields f fs.length (jsonEncFields fs ++ rest) = some (fs, rest)) := by
  intro f
  induction f with
  | zero =>
    refine ⟨?_, ?_, ?_⟩
    · intro j rest hj; cases j <;> simp [jsonSize] at hj
    · intro xs rest hxs
      cases xs with
      | nil => rfl
      | cons x xs => simp [jsonListSize] at hxs
    · intro fs rest hfs
      cases fs with
      | nil => rfl
      | cons kv fs => simp [jsonFieldsSize] at hfs
  | succ f ih =>
    obtain ⟨ihj, ihl, ihf⟩ := ih
    refine ⟨?_, ?_, ?_⟩
    · intro j rest hj
      cases j with
      | null => rfl
      | bool b => cases b <;> rfl
      | num n =>
        cases n with
        | ofNat m => rfl
        | negSucc m =>
          simp only [jsonEnc, intEnc, List.cons_append, jsonDec]
          have hm : -(((m + 1 : Nat) : Int)) = Int.negSucc m := by
            rw [Int.negSucc_eq]
            push_cast
            ring
          rw [hm]
          simp
      | str s =>
        simp only [jsonEnc, strEnc, List.cons_append, jsonDec, readN_charCodes]
        simp only [Option.map_some', Option.some.injEq, Prod.mk.injEq, and_true]
        refine congrArg Json.str (string_data_injective ?_)
        exact map_ofNat_toNat s.data
      | arr xs =>
        have hx : jsonListSize xs ≤ f := by simp [jsonSize] at hj; omega
        simp only [jsonEnc, List.cons_append, jsonDec]
        rw [ihl xs rest hx]
        rfl
      | obj fs =>
        have hx : jsonFieldsSize fs ≤ f := by simp [jsonSize] at hj; omega
        simp only [jsonEnc, List.cons_append, jsonDec]
        rw [ihf fs rest hx]
        rfl
    · intro xs rest hxs
      cases xs with
      | nil => rfl
      | cons x xs' =>
        have hx : jsonSize x ≤ f := by simp [jsonListSize] at hxs; omega
        have hxs' : jsonListSize xs' ≤ f := by simp [jsonListSize] at hxs; omega
        simp only [jsonEncList, List.length_cons, List.append_assoc, jsonDecList,
          Option.bind_eq_bind]
        rw [ihj x _ hx]
        simp only [Option.some_bind]
        rw [ihl xs' rest hxs']
        rfl
    · intro fs rest hfs
      cases fs with
      | nil => rfl
      | cons kv fs' =>
        obtain ⟨k, v⟩ := kv
        have hv : jsonSize v ≤ f := by simp [jsonFieldsSize] at hfs; omega
        have hfs' : jsonFieldsSize fs' ≤ f := by simp [jsonFieldsSize] at hfs; omega
        simp only [jsonEncFields, strEnc, List.cons_append, List.length_cons,
          List.append_assoc, jsonDecFields, readN_charCodes, Option.bind_eq_bind,
          Option.some_bind]
        rw [ihj v _ hv]
        simp only [Option.some_bind]
        rw [ihf fs' rest hfs']
        simp only [map_ofNat_toNat, Option.some_bind]

/-- Twice the token count of an encoded JSON value bounds its size, so
twice the input length is always enough decoding fuel. -/
theorem jsonSize_le_encLength : ∀ f : Nat,
    (∀ j, jsonSize j ≤ f → jsonSize j + 1 ≤ 2 * (jsonEnc j).length)
  ∧ (∀ xs, jsonListSize xs ≤ f → jsonListSize xs ≤ 2 * (jsonEncList xs).length)
  ∧ (∀ fs, jsonFieldsSize fs ≤ f → jsonFieldsSize fs ≤ 2 * (jsonEncFields fs).length) := by
  intro f
  induction f with
  | zero =>
    refine ⟨?_, ?_, ?_⟩
    · intro j hj; cases j <;> simp [jsonSize] at hj
    · intro xs hxs
      cases xs with
      | nil => simp [jsonListSize]
      | cons x xs => simp [jsonListSize] at hxs
    · intro fs hfs
      cases fs with
      | nil => simp [jsonFieldsSize]
      | cons kv fs => simp [jsonFieldsSize] at hfs
  | succ f ih =>
    obtain ⟨ihj, ihl, ihf⟩ := ih
    refine ⟨?_, ?_, ?_⟩
    · intro j hj
      cases j with
      | null => simp [jsonSize, jsonEnc]
      | bool b => simp [jsonSize, jsonEnc]
      | num n => cases n <;> simp [jsonSize, jsonEnc, intEnc]
      | str s => simp [jsonSize, jsonEnc, strEnc]
      | arr xs =>
        have hx : jsonListSize xs ≤ f := by simp [jsonSize] at hj; omega
        have := ihl xs hx
        simp [jsonSize, jsonEnc]
        omega
      | obj fs =>
        have hx : jsonFieldsSize fs ≤ f := by simp [jsonSize] at hj; omega
        have := ihf fs hx
        simp [jsonSize, jsonEnc]
        omega
    · intro xs hxs
      cases xs with
      | nil => simp [jsonListSize]
      | cons x xs' =>
        have hx : jsonSize x ≤ f := by simp [jsonListSize] at hxs; omega
        have hxs' : jsonListSize xs' ≤ f := by simp [jsonListSize] at hxs; omega
        have h1 := ihj x hx
        have h2 := ihl xs' hxs'
        simp [jsonListSize, jsonEncList]
        omega
    · intro fs hfs
      cases fs with
      | nil => simp [jsonFieldsSize]
      | cons kv fs' =>
        obtain ⟨k, v⟩ := kv
        have hv : jsonSize v ≤ f := by simp [jsonFieldsSize] at hfs; omega
        have hfs' : jsonFieldsSize fs' ≤ f := by simp [jsonFieldsSize] at hfs; omega
        have h1 := ihj v hv
        have h2 := ihf fs' hfs'
        simp [jsonFieldsSize, jsonEncFields, strEnc]
        omega

/-- Configuration-record round-trip through the binary codec, given enough
fuel for the extension-metadata values. -/
theorem chainConfigDec_enc (c : ChainConfig) (f : Nat)
    (hf : jsonFieldsSize c.extra_fields ≤ f) (rest : List Nat) :
    chainConfigDec f (chainConfigEnc c ++ rest) = some (c, rest) := by
  obtain ⟨cid, hb, lb, st, ct, pt, bs, efs⟩ := c
  have hj := (jsonCodec_roundtrip f).2.2 efs rest hf
  simp only [chainConfigEnc, List.cons_append, List.append_assoc]
  simp only [chainConfigDec, Option.bind_eq_bind, optDec_optEnc, Option.some_bind,
    blobEntriesDec_enc, hj]

/-- C6: serializing any chain identity — named or Custom, including Custom
configurations carrying a non-empty blob-fee schedule — and deserializing
the result yields the original value. -/
theorem genesis_serde_roundtrip (g : Genesis) :
    bincode_deserialize (bincode_serialize g) = some g := by
  cases g with
  | Mainnet => rfl
  | OpMainnet => rfl
  | Sepolia => rfl
  | Holesky => rfl
  | Linea => rfl
  | Custom c =>
    have h1 := (jsonSize_le_encLength (jsonFieldsSize c.extra_fields)).2.2
      c.extra_fields le_rfl
    have h2 : (jsonEncFields c.extra_fields).length ≤ (5 :: chainConfigEnc c).length := by
      simp [chainConfigEnc, List.length_append]
      omega
    have hsize : jsonFieldsSize c.extra_fields ≤ 2 * ((5 :: chainConfigEnc c).length) := by
      omega
    have hdec := chainConfigDec_enc c (2 * ((5 :: chainConfigEnc c).length)) hsize []
    rw [List.append_nil] at hdec
    simp only [bincode_serialize, bincode_deserialize, hdec]
    rfl
